import Mathlib

/-!
Verification development for the `httpr` HTTP client library (Go).

The embedding below mirrors `service.go` and `group.go`.  Network I/O is
abstracted by a `Transport`: a function from the attempt index (0-based,
counting calls to `Request._do`) to the outcome of that network call.
Wire-request materialization (`http.NewRequest` inside `Request.Request`)
is abstracted by a `Mat` function from method and URI to a result.
Hook callbacks are identified by numeric ids; an after hook also carries
the boolean stop signal it returns.  Errors and response payloads are
numeric codes.
-/

namespace Httpr

/-- Outcome of one network call: fail with an error code or succeed with a
response code.  Mirrors the `(resp, err)` pair returned by `http.Client.Do`. -/
abbrev NetResult := Except Nat Nat

/-- The network, indexed by attempt number (how many `_do` calls happened
before this one). -/
abbrev Transport := Nat → NetResult

/-- Wire-request materialization (`http.NewRequest(method, uri, nil)`):
given method and URI, either an error or a (trivial) wire request. -/
abbrev Mat := String → String → Except Nat Unit

/-- Model of `http.Client`: only the timeout field matters here. -/
structure Client where
  timeout : Nat
deriving DecidableEq, Repr

/-- Model of `Service` (service.go): the shared `http.Client`, the
shared-scope pre-send hook ids (`beforeRequest`) and the shared-scope
post-response hooks (`afterHooks`), each an id paired with the stop signal
the hook returns. -/
structure ServiceM where
  client : Client
  beforeRequest : List Nat
  afterHooks : List (Nat × Bool)
deriving DecidableEq, Repr

/-- Model of `Request` (service.go): method, uri, retry-delay list
(`retries`, delays as naturals), the optional owning service (a Go nil
pointer is `none`), request-scope hooks, and the conf timeout. -/
structure RequestM where
  method : String
  uri : String
  retries : List Nat
  service : Option ServiceM
  beforeRequest : List Nat
  afterHooks : List (Nat × Bool)
  confTimeout : Nat
deriving DecidableEq, Repr

/-- `NewRequest(method, uri)` from service.go: a standalone request with no
owning service (`service` is the Go nil pointer) and a 20-second conf
timeout (modelled as 20). -/
def NewRequest (method uri : String) : RequestM :=
  { method := method
    uri := uri
    retries := []
    service := none
    beforeRequest := []
    afterHooks := []
    confTimeout := 20 }

/-- `Request.client()` from service.go: the nil-safe client accessor.
If the request has an owning service it returns the service's client,
otherwise a fresh client built from the request's own conf timeout. -/
def RequestM.client (req : RequestM) : Client :=
  match req.service with
  | some s => s.client
  | none => { timeout := req.confTimeout }

/-- Result of executing a request: `crash` is a nil-pointer dereference
panic, `err e` is an error envelope, `ok v` a response envelope. -/
inductive Outcome where
  | crash
  | err (e : Nat)
  | ok (v : Nat)
deriving DecidableEq, Repr

/-- `Request._do(r)` from service.go evaluates `req.service.client.Do(r)`:
when `req.service` is nil this dereferences a nil pointer and panics;
otherwise the network call (attempt number `k`) runs. -/
def RequestM.doOnce (req : RequestM) (t : Transport) (k : Nat) : Outcome :=
  match req.service with
  | none => .crash
  | some _ =>
    match t k with
    | .error e => .err e
    | .ok v => .ok v

/-- Pre-send hook dispatch (`Request.doBeforeRequestHooks` in service.go):
when the service pointer is non-nil its `beforeRequest` hooks run first,
then the request-scope hooks; the returned list is the invocation order. -/
def RequestM.beforeHookTrace (req : RequestM) : List Nat :=
  (match req.service with
   | some s => s.beforeRequest
   | none => []) ++ req.beforeRequest

/-- Trace data collected by `Request.do`: pre-send hook ids in invocation
order, the number of network attempts (`_do` calls), and the delays slept,
in order. -/
structure DoTrace where
  beforeIds : List Nat
  attempts : Nat
  sleeps : List Nat
deriving DecidableEq, Repr

/-- The retry for-loop of `Request.do` (service.go), exactly as written:

    for _, wait := range req.retries {
        time.Sleep(wait)
        rsp, err = req._do(r)
        if err != nil { return }
    }

For each remaining delay `w`: sleep `w`, perform the next attempt; if that
attempt FAILED return it at once; if it succeeded keep looping (the code
returns early on error, not on success).  `k` is the next attempt index,
`cur` the most recent result, `slept` the delays slept so far (reversed).
Returns (final result, total attempts, delays slept in order). -/
def retryLoop (t : Transport) : List Nat → Nat → NetResult → List Nat →
    NetResult × Nat × List Nat
  | [], k, cur, slept => (cur, k, slept.reverse)
  | w :: ws, k, _, slept =>
    match t k with
    | .error e => (.error e, k + 1, (w :: slept).reverse)
    | .ok v => retryLoop t ws (k + 1) (.ok v) (w :: slept)

/-- `Request.do` from service.go: materialize the wire request
(`req.Request()`, failure returns at once with no hooks and no attempt),
run pre-send hooks, perform the first network call (`req._do`, which
crashes when the service pointer is nil), return on success, otherwise
enter the retry loop.  The empty method defaults to GET inside
`Request.Request`. -/
def RequestM.doCall (req : RequestM) (mat : Mat) (t : Transport) :
    Outcome × DoTrace :=
  match mat (if req.method = "" then "GET" else req.method) req.uri with
  | .error e => (.err e, ⟨[], 0, []⟩)
  | .ok _ =>
    let bids := req.beforeHookTrace
    match req.service with
    | none => (.crash, ⟨bids, 0, []⟩)
    | some _ =>
      match t 0 with
      | .ok v => (.ok v, ⟨bids, 1, []⟩)
      | .error e =>
        match retryLoop t req.retries 1 (.error e) [] with
        | (.ok v, k, ss) => (.ok v, ⟨bids, k, ss⟩)
        | (.error e2, k, ss) => (.err e2, ⟨bids, k, ss⟩)

/-- One pass over a single after-hook list: run hooks in order, recording
ids; stop right after the first hook whose stop signal is true.  Returns
the ids invoked and whether a stop was signalled. -/
def runAfterList : List (Nat × Bool) → List Nat × Bool
  | [] => ([], false)
  | (i, s) :: rest =>
    if s then ([i], true)
    else
      match runAfterList rest with
      | (ids, st) => (i :: ids, st)

/-- `Request.doAfterHooks` from service.go: when the service pointer is
non-nil its `afterHooks` run first and a stop signal there returns at
once; then the request-scope after hooks run the same way. -/
def RequestM.afterHookRun (req : RequestM) : List Nat × Bool :=
  match req.service with
  | none => runAfterList req.afterHooks
  | some s =>
    match runAfterList s.afterHooks with
    | (ids, true) => (ids, true)
    | (ids, false) =>
      match runAfterList req.afterHooks with
      | (ids2, st) => (ids ++ ids2, st)

/-- Full execution log of `Request.Response`: the `Request.do` trace plus
the after-hook ids invoked. -/
structure ExecLog where
  beforeIds : List Nat
  attempts : Nat
  sleeps : List Nat
  afterIds : List Nat
deriving DecidableEq, Repr

/-- `Request.Response` from service.go: run `Request.do`, then ALWAYS run
the after hooks (the call to `doAfterHooks` is unconditional, even when
`do` returned an error).  A crash (panic) inside `do` unwinds, so no after
hook runs in that case. -/
def RequestM.ResponseExec (req : RequestM) (mat : Mat) (t : Transport) :
    Outcome × ExecLog :=
  match req.doCall mat t with
  | (.crash, tr) => (.crash, ⟨tr.beforeIds, tr.attempts, tr.sleeps, []⟩)
  | (res, tr) =>
    match req.afterHookRun with
    | (aids, _) => (res, ⟨tr.beforeIds, tr.attempts, tr.sleeps, aids⟩)

/-- Model of `Response` (service.go): the cache fields `body` and `err`
(Go nil is `none`), and the wire response body stream.  `stream = some bs`
is an open stream whose full remaining content is `bs`; `stream = none` is
a consumed-and-closed stream (reading it fails, as Go's
`http: read on closed response body`). -/
structure RespState where
  body : Option (List Nat)
  rerr : Option Nat
  stream : Option (List Nat)
deriving DecidableEq, Repr

/-- The error returned by reading a closed response body. -/
def readClosedErr : Nat := 99

/-- `Response.Bytes` from service.go, exactly as written: if either cache
field is set, return the cached pair; otherwise `ioutil.ReadAll` the body
stream (an error is returned at once; on success the body is closed by the
deferred `Close` and the bytes returned).  Note the source never assigns
`rsp.body` or `rsp.err`, so the cache fields are never populated here. -/
def RespState.Bytes (r : RespState) : Except Nat (List Nat) × RespState :=
  if r.body.isSome ∨ r.rerr.isSome then
    (match r.rerr with
     | some e => .error e
     | none => .ok (r.body.getD []), r)
  else
    match r.stream with
    | some bs => (.ok bs, { r with stream := none })
    | none => (.error readClosedErr, r)

/-! ## Group (group.go) -/

/-- The producer goroutine of `Group.Sync` as a labelled transition system.
`running i` is the loop head about to execute request `i`; `waiting i` is
the state right after envelope `i` was sent on the channel, blocked in the
`select` on the `next`/`stop` contexts; `closed` is the deferred
`close(g.sync)` having run (loop exited). -/
inductive SyncState where
  | running (i : Nat)
  | waiting (i : Nat)
  | closed
deriving DecidableEq, Repr

/-- Events of the sequential gated stream: `deliver` executes the current
request and completes the blocking channel send; `finish` exits the loop
when the request list is exhausted; `cont` and `stop` are the consumer
calling `Continue()` / `Stop()` (cancelling the `next` / `stop` context
the producer is selecting on). -/
inductive SyncEvent where
  | deliver
  | finish
  | cont
  | stop
deriving DecidableEq, Repr

/-- One step of the `Group.Sync` producer for a group of `n` requests:
the returned pair is the next state and the envelope index delivered by
the step, `none` when no envelope is sent.  `none` overall means the event
is not enabled in that state.  From `running i` with `i < n` the producer
executes request `i` and blocks delivering its envelope (`deliver`);
exhaustion (`i = n`) runs the deferred close (`finish`).  From `waiting i`
only the consumer's `Continue()` (resume loop at `i+1`) or `Stop()`
(return, running the deferred close) are enabled: the select blocks the
producer.  `closed` is terminal. -/
def syncStep (n : Nat) : SyncState → SyncEvent → Option (SyncState × Option Nat)
  | .running i, .deliver => if i < n then some (.waiting i, some i) else none
  | .running i, .finish => if i < n then none else some (.closed, none)
  | .running _, _ => none
  | .waiting i, .cont => some (.running (i + 1), none)
  | .waiting _, .stop => some (.closed, none)
  | .waiting _, _ => none
  | .closed, _ => none

/-- The channel-reference fields of a `Group` (group.go): `g.sync` and
`g.async`, each nil (`none`) or holding a channel identified by a numeric
id; `nextId` models allocation of fresh channels by `make(chan ...)`. -/
structure GroupChans where
  syncCh : Option Nat
  asyncCh : Option Nat
  nextId : Nat
deriving DecidableEq, Repr

/-- The entry of `Group.Sync` (group.go): if `g.sync` is non-nil return it;
otherwise allocate a fresh channel, store it in `g.sync`, start the
producer goroutine, and return it. -/
def GroupChans.Sync (g : GroupChans) : Nat × GroupChans :=
  match g.syncCh with
  | some c => (c, g)
  | none => (g.nextId, { g with syncCh := some g.nextId, nextId := g.nextId + 1 })

/-- The deferred epilogue of the `Group.Sync` producer goroutine:
`close(g.sync); g.sync = nil` — the channel reference is cleared when the
stream finishes. -/
def GroupChans.syncFinish (g : GroupChans) : GroupChans :=
  { g with syncCh := none }

/-- The entry of `Group.Async` (group.go): if `g.async` is non-nil return
it; otherwise allocate a fresh buffered channel, store it in `g.async`,
start the fan-out goroutines, and return it. -/
def GroupChans.Async (g : GroupChans) : Nat × GroupChans :=
  match g.asyncCh with
  | some c => (c, g)
  | none => (g.nextId, { g with asyncCh := some g.nextId, nextId := g.nextId + 1 })

/-- The epilogue of the `Group.Async` coordinator goroutine after
`wg.Wait()`: `close(g.async); g.async = nil`. -/
def GroupChans.asyncFinish (g : GroupChans) : GroupChans :=
  { g with asyncCh := none }

/-- Channel ids held by a `GroupChans` are below the allocation counter:
true of every state reachable from a fresh `Group`. -/
def GroupChans.wf (g : GroupChans) : Prop :=
  (∀ c, g.syncCh = some c → c < g.nextId) ∧
  (∀ c, g.asyncCh = some c → c < g.nextId)

/-- `Group.Async` fan-in (group.go): the for-range loop spawns one
goroutine per iteration, but the closure captures the single shared loop
variable `req` with no per-iteration copy (the repository has no go.mod,
so pre-Go-1.22 shared-variable range semantics apply).  The variable is
assigned `reqs[i]` just before goroutine `i` is spawned and only advances
afterwards, so goroutine `i` executes `reqs[reads i]`, where `reads i` is
the index the shared variable had reached when the goroutine read it —
any index with `i ≤ reads i < reqs.length` (`validReads`).  Each
goroutine sends exactly one envelope into the buffered channel; after
`wg.Wait()` the channel is closed (`true`).  `order` is the completion
order of the goroutines; the delivered envelope of goroutine `i` is the
result of executing the request it read. -/
def asyncDeliveries (reqs : List RequestM) (mat : Mat) (t : Transport)
    (reads : Nat → Nat) (order : List Nat) : List Outcome × Bool :=
  let envs := (List.range reqs.length).map
    (fun i => ((reqs.getD (reads i) (NewRequest "" "")).ResponseExec mat t).1)
  (order.filterMap (fun i => envs.get? i), true)

/-- A read schedule the program can produce: goroutine `i` cannot read a
value of the shared loop variable older than its own spawn iteration, and
the variable never holds an out-of-range index. -/
def validReads (k : Nat) (reads : Nat → Nat) : Prop :=
  ∀ i < k, i ≤ reads i ∧ reads i < k

/-! ## Builder pair operations (service.go) -/

/-- Consecutive pairs of a list, as walked by the Go loop
`for i := 0; i < len(xs); i += 2`. -/
def pairsOf : List String → List (String × String)
  | a :: b :: rest => (a, b) :: pairsOf rest
  | _ => []

/-- Go map assignment `s.paths[k] = v`: later pairs with the same key
overwrite.  The map is modelled as a lookup function. -/
def pathsStore (acc : String → Option String) (kv : String × String) :
    String → Option String :=
  fun k => if k = kv.1 then some kv.2 else acc k

/-- `url.Values.Add(k, v)`: append the value to the key's value list. -/
def paramsAdd (acc : String → List String) (kv : String × String) :
    String → List String :=
  fun k => if k = kv.1 then acc k ++ [kv.2] else acc k

/-- `Service.Paths(methodAndPath...)` from service.go: panic (modelled as
`Except.error` carrying the panic message) when the argument count is odd;
otherwise store each pair into the `paths` map in order. -/
def ServiceM.Paths (paths : String → Option String) (methodAndPath : List String) :
    Except String (String → Option String) :=
  if methodAndPath.length % 2 ≠ 0 then
    .error "method and path are not pairs"
  else
    .ok ((pairsOf methodAndPath).foldl pathsStore paths)

/-- `Request.Params(params...)` from service.go: panic (modelled as
`Except.error` carrying the panic message) when the argument count is odd;
otherwise `url.Values.Add` each pair in order. -/
def RequestM.Params (params : String → List String) (args : List String) :
    Except String (String → List String) :=
  if args.length % 2 ≠ 0 then
    .error "params error"
  else
    .ok ((pairsOf args).foldl paramsAdd params)

/-! ## Spec-side reference definitions -/

/-- The post-response hook discipline in the spec's words: hooks are
evaluated in order and evaluation halts right after the first hook whose
stop signal is true; the boolean reports whether some hook signalled
stop.  Used only to compare `RequestM.afterHookRun` against the spec. -/
def runAfterSpec (hs : List (Nat × Bool)) : List Nat × Bool :=
  ((hs.takeWhile (fun p => !p.2)).map Prod.fst
      ++ ((hs.dropWhile (fun p => !p.2)).head?.map Prod.fst).toList,
    hs.any Prod.snd)

/-! ## Concrete sample inputs -/

/-- A service with no hooks. -/
def plainService : ServiceM :=
  { client := { timeout := 20 }, beforeRequest := [], afterHooks := [] }

/-- A service-owned request with the given retry-delay list and no hooks. -/
def retryingReq (retries : List Nat) : RequestM :=
  { method := "GET", uri := "http://example.com/a", retries := retries
    service := some plainService
    beforeRequest := [], afterHooks := [], confTimeout := 20 }

/-- A transport failing every attempt (error code = attempt index). -/
def alwaysFail : Transport := fun k => .error k

/-- A transport failing the first `n` attempts, then answering 100. -/
def failNThenOk (n : Nat) : Transport := fun k =>
  if k < n then .error k else .ok 100

/-- Materialization that always succeeds. -/
def matOk : Mat := fun _ _ => .ok ()

/-- Materialization that always fails with error 42 (malformed URI). -/
def matFail : Mat := fun _ _ => .error 42

/-- A request carrying one request-scope pre-send hook (id 3) and one
request-scope post-response hook (id 7, no stop). -/
def hookedReq : RequestM :=
  { method := "GET", uri := "://bad", retries := []
    service := none
    beforeRequest := [3], afterHooks := [(7, false)], confTimeout := 20 }

/-- A service with pre-send hooks 1, 2 and post-response hooks 10 (no
stop), 11 (stop), 12 (no stop). -/
def hookedService : ServiceM :=
  { client := { timeout := 20 }
    beforeRequest := [1, 2]
    afterHooks := [(10, false), (11, true), (12, false)] }

/-- A request owned by `hookedService` with its own pre-send hook 3 and
post-response hook 20 (no stop). -/
def hookedServiceReq : RequestM :=
  { method := "GET", uri := "http://example.com/a", retries := []
    service := some hookedService
    beforeRequest := [3], afterHooks := [(20, false)], confTimeout := 20 }

/-- A fresh group: both channel references nil, no channel allocated. -/
def freshGroup : GroupChans := { syncCh := none, asyncCh := none, nextId := 0 }

/-- An empty paths map. -/
def emptyPaths : String → Option String := fun _ => none

/-- An empty `url.Values`. -/
def emptyParams : String → List String := fun _ => []

/-- Two distinguishable sample requests for the fan-in race: executing
the first yields an error envelope, executing the second crashes. -/
def raceReqs : List RequestM := [retryingReq [], NewRequest "GET" "http://example.com"]

/-! ## Helper lemmas -/

/-- The two-phase after-hook scan agrees with the spec-side halting scan
on any single list. -/
theorem runAfterList_eq_spec (hs : List (Nat × Bool)) :
    runAfterList hs = runAfterSpec hs := by
  induction hs with
  | nil => rfl
  | cons p rest ih =>
    obtain ⟨i, s⟩ := p
    cases s with
    | true => simp [runAfterList, runAfterSpec, List.takeWhile, List.dropWhile]
    | false =>
      simp only [runAfterList, runAfterSpec, List.takeWhile, List.dropWhile,
        List.any_cons, Bool.false_or, Bool.not_false, List.map_cons] at *
      rw [ih]
      simp [runAfterSpec]

/-- Scanning a concatenation halts inside the first list when it stops
there, and otherwise continues into the second. -/
theorem runAfterList_append (xs ys : List (Nat × Bool)) :
    runAfterList (xs ++ ys) =
      match runAfterList xs with
      | (ids, true) => (ids, true)
      | (ids, false) => (ids ++ (runAfterList ys).1, (runAfterList ys).2) := by
  induction xs with
  | nil => simp [runAfterList]
  | cons p rest ih =>
    obtain ⟨i, s⟩ := p
    cases s with
    | true => simp [runAfterList]
    | false =>
      simp only [List.cons_append, runAfterList, ih]
      cases h : runAfterList rest with
      | mk ids st =>
        rw [h] at ih
        cases st <;> simp [ih]

/-- For a service-owned request, `doAfterHooks` is a single halting scan
of the shared-scope list followed by the request-scope list. -/
theorem afterHookRun_eq_concat (s : ServiceM) (req : RequestM)
    (h : req.service = some s) :
    req.afterHookRun = runAfterList (s.afterHooks ++ req.afterHooks) := by
  unfold RequestM.afterHookRun
  rw [h, runAfterList_append]

/-- Looking every index of a list up in order reproduces the list. -/
theorem range_filterMap_get (l : List α) :
    (List.range l.length).filterMap l.get? = l := by
  induction l with
  | nil => rfl
  | cons a l ih =>
    rw [List.length_cons, List.range_succ_eq_map, List.filterMap_cons]
    simp only [List.get?_cons_zero]
    rw [List.filterMap_map]
    have : (fun i => (a :: l).get? i) ∘ Nat.succ = fun i => l.get? i := by
      funext i
      simp
    simp only [Function.comp] at this ⊢
    calc a :: List.filterMap (fun i => (a :: l).get? i.succ) (List.range l.length)
        = a :: List.filterMap (fun i => l.get? i) (List.range l.length) := by
          simp
      _ = a :: l := by rw [ih]

/-- Looking every index of a list up in order with a default reproduces
the list. -/
theorem range_map_getD (l : List α) (d : α) :
    (List.range l.length).map (fun i => l.getD i d) = l := by
  induction l with
  | nil => rfl
  | cons a l ih =>
    rw [List.length_cons, List.range_succ_eq_map, List.map_cons, List.map_map]
    simp only [List.getD_cons_zero]
    have htail : (List.range l.length).map ((fun i => (a :: l).getD i d) ∘ Nat.succ)
        = (List.range l.length).map (fun i => l.getD i d) := by
      simp [Function.comp, List.getD_cons_succ]
    rw [htail, ih]

/-- Folding path-pair stores never removes a present key. -/
theorem pathsStore_isSome_mono (l : List (String × String)) (k : String) :
    ∀ acc : String → Option String, (acc k).isSome = true →
      ((l.foldl pathsStore acc) k).isSome = true := by
  induction l with
  | nil => exact fun acc h => h
  | cons kv rest ih =>
    intro acc h
    refine ih (pathsStore acc kv) ?_
    unfold pathsStore
    by_cases hk : k = kv.1
    · simp [hk]
    · simpa [hk] using h

/-- Every stored path pair leaves its key present in the final map. -/
theorem pathsStore_mem_isSome (l : List (String × String)) (k v : String)
    (h : (k, v) ∈ l) :
    ∀ acc : String → Option String,
      ((l.foldl pathsStore acc) k).isSome = true := by
  induction l with
  | nil => cases h
  | cons kv rest ih =>
    intro acc
    rcases List.mem_cons.mp h with heq | hmem
    · subst heq
      refine pathsStore_isSome_mono rest k (pathsStore acc (k, v)) ?_
      unfold pathsStore
      simp
    · exact ih hmem _

/-- Folding `url.Values.Add` never removes a present value. -/
theorem paramsAdd_mem_mono (l : List (String × String)) (k v : String) :
    ∀ acc : String → List String, v ∈ acc k →
      v ∈ (l.foldl paramsAdd acc) k := by
  induction l with
  | nil => exact fun acc h => h
  | cons kv rest ih =>
    intro acc h
    refine ih (paramsAdd acc kv) ?_
    unfold paramsAdd
    by_cases hk : k = kv.1
    · simp only [if_pos hk]
      exact List.mem_append_left _ h
    · simpa [hk] using h

/-- Every added param pair is retrievable from the final `url.Values`. -/
theorem paramsAdd_mem (l : List (String × String)) (k v : String)
    (h : (k, v) ∈ l) :
    ∀ acc : String → List String, v ∈ (l.foldl paramsAdd acc) k := by
  induction l with
  | nil => cases h
  | cons kv rest ih =>
    intro acc
    rcases List.mem_cons.mp h with heq | hmem
    · subst heq
      refine paramsAdd_mem_mono rest k v (paramsAdd acc (k, v)) ?_
      unfold paramsAdd
      simp
    · exact ih hmem _

/-! ## Claim theorems -/

/-- C1: the claim says an always-failing transport with N configured
retry delays yields exactly N+1 attempts, sleeping each delay in order,
and returns the final attempt's failure.  The code refutes it: with the
delay list [5, 7] (N = 2) execution performs only 2 attempts and sleeps
only the first delay, because the retry loop returns as soon as a RETRY
fails (`if err != nil { return }`), so 2 ≠ N + 1 = 3. -/
theorem C1_always_fail_two_delays_stops_after_first_retry :
    RequestM.doCall (retryingReq [5, 7]) matOk alwaysFail
        = (.err 1, ⟨[], 2, [5]⟩) ∧
      (retryingReq [5, 7]).retries.length + 1 = 3 ∧ (2 : Nat) ≠ 3 := by
  refine ⟨rfl, rfl, by decide⟩

/-- C2: the claim says a transport failing exactly the first N attempts
then succeeding yields success after N retries with all N delays slept.
The code refutes it: with the delay list [5, 7] (N = 2) and a transport
failing attempts 0 and 1 then succeeding, execution returns the FAILURE
of attempt 1 after only 2 attempts and 1 sleep — the loop's inverted
condition returns on a failed retry instead of retrying again, even
though attempt 2 would have succeeded. -/
theorem C2_fail_twice_then_ok_returns_failure :
    RequestM.doCall (retryingReq [5, 7]) matOk (failNThenOk 2)
        = (.err 1, ⟨[], 2, [5]⟩) ∧
      failNThenOk 2 2 = .ok 100 ∧
      Outcome.err 1 ≠ .ok 100 := by
  refine ⟨rfl, rfl, by decide⟩

/-- C3 counterexample: the claim says a materialization failure invokes no
post-response hook, but on a request with one request-scope after hook
(id 7) and failing materialization, `Request.Response` still invokes that
hook — its unconditional `doAfterHooks` call runs with a nil response. -/
theorem C3_after_hooks_run_on_materialization_failure :
    (RequestM.ResponseExec hookedReq matFail alwaysFail).2.afterIds = [7] ∧
    ([7] : List Nat) ≠ [] := by
  refine ⟨rfl, by decide⟩

/-- C3 (amended): when materialization fails, execution returns the
materialization error immediately with no network attempt and no pre-send
hook, but the post-response hooks still run (shared scope first), because
`Request.Response` calls `doAfterHooks` unconditionally. -/
theorem C3_materialization_failure_skips_presend_runs_after
    (req : RequestM) (mat : Mat) (t : Transport) (e : Nat)
    (h : mat (if req.method = "" then "GET" else req.method) req.uri = .error e) :
    req.ResponseExec mat t
      = (.err e, ⟨[], 0, [], req.afterHookRun.1⟩) := by
  have hdo : req.doCall mat t = (.err e, ⟨[], 0, []⟩) := by
    unfold RequestM.doCall
    rw [h]
  unfold RequestM.ResponseExec
  rw [hdo]

/-- C3 witness: a concrete service-owned request whose materialization
fails with error 9 returns that error with zero attempts, no pre-send
hooks, and after hooks 10 and 11 invoked (11 signals stop). -/
theorem C3_witness_mat_failure :
    RequestM.ResponseExec hookedServiceReq (fun _ _ => .error 9) alwaysFail
      = (.err 9, ⟨[], 0, [], [10, 11]⟩) :=
  C3_materialization_failure_skips_presend_runs_after hookedServiceReq _ _ 9 rfl

/-- C4: the claim says the first body read caches bytes and later reads
return the cached bytes without touching the stream.  The code refutes
it: `Response.Bytes` never assigns the cache fields, so after a first
successful read of [1, 2] (which consumes and closes the stream) the
cache is still empty and a second read hits the closed stream and
returns an error instead of the bytes. -/
theorem C4_body_not_cached_second_read_differs :
    (RespState.Bytes ⟨none, none, some [1, 2]⟩).1 = .ok [1, 2] ∧
    (RespState.Bytes ⟨none, none, some [1, 2]⟩).2.body = none ∧
    (RespState.Bytes ⟨none, none, some [1, 2]⟩).2.rerr = none ∧
    (RespState.Bytes ((RespState.Bytes ⟨none, none, some [1, 2]⟩).2)).1
        = .error readClosedErr ∧
    (Except.error readClosedErr : Except Nat (List Nat)) ≠ .ok [1, 2] := by
  refine ⟨rfl, rfl, rfl, rfl, fun hEq => Except.noConfusion hEq⟩

/-- C5: on a service-owned request, all shared-scope pre-send hooks run
before any request-scope pre-send hook, in list order; and the
post-response phase equals a single in-order halting scan of the
shared-scope list followed by the request-scope list, stopping right
after the first hook that signals stop. -/
theorem C5_shared_hooks_first_after_halts_on_stop
    (s : ServiceM) (req : RequestM) (h : req.service = some s) :
    req.beforeHookTrace = s.beforeRequest ++ req.beforeRequest ∧
    req.afterHookRun = runAfterSpec (s.afterHooks ++ req.afterHooks) := by
  constructor
  · unfold RequestM.beforeHookTrace
    rw [h]
  · rw [afterHookRun_eq_concat s req h, runAfterList_eq_spec]

/-- C5 witness: on the concrete hooked request, pre-send hooks run as
[1, 2] then [3], and the after phase matches the spec scan of the
concatenated hook lists. -/
theorem C5_witness_hook_order :
    hookedServiceReq.beforeHookTrace = [1, 2] ++ [3] ∧
    hookedServiceReq.afterHookRun
      = runAfterSpec ([(10, false), (11, true), (12, false)] ++ [(20, false)]) :=
  C5_shared_hooks_first_after_halts_on_stop hookedService hookedServiceReq rfl

/-- C6: in the sequential gated stream, a producer that has delivered
envelope i (state `waiting i`) can make no step other than the consumer's
Continue (resume at request i+1) or Stop (close the stream); and from the
closed state no event is enabled, so no remaining request executes and no
further envelope is delivered. -/
theorem C6_waiting_blocks_until_continue_or_stop (n i : Nat) :
    syncStep n (.waiting i) .deliver = none ∧
    syncStep n (.waiting i) .finish = none ∧
    syncStep n (.waiting i) .cont = some (.running (i + 1), none) ∧
    syncStep n (.waiting i) .stop = some (.closed, none) ∧
    (∀ e, syncStep n .closed e = none) := by
  refine ⟨rfl, rfl, rfl, rfl, fun e => ?_⟩
  cases e <;> rfl

/-- C7: calling the same consumption mode again while its stream is
active returns the existing channel and leaves the group unchanged; when
the stream finishes the reference is cleared (nil), and a later call
allocates a channel different from the previous one — for both the
sequential (`Sync`) and parallel (`Async`) modes. -/
theorem C7_mode_reuse_and_reset (g : GroupChans) (h : g.wf) :
    g.Sync.2.Sync = (g.Sync.1, g.Sync.2) ∧
    (g.Sync.2.syncFinish).syncCh = none ∧
    (g.Sync.2.syncFinish).Sync.1 ≠ g.Sync.1 ∧
    g.Async.2.Async = (g.Async.1, g.Async.2) ∧
    (g.Async.2.asyncFinish).asyncCh = none ∧
    (g.Async.2.asyncFinish).Async.1 ≠ g.Async.1 := by
  obtain ⟨hs, ha⟩ := h
  obtain ⟨sc, ac, nid⟩ := g
  refine ⟨?_, ?_, ?_, ?_, ?_, ?_⟩
  · cases sc <;> rfl
  · cases sc <;> rfl
  · cases sc with
    | none => exact Nat.succ_ne_self nid
    | some c => exact (hs c rfl).ne'
  · cases ac <;> rfl
  · cases ac <;> rfl
  · cases ac with
    | none => exact Nat.succ_ne_self nid
    | some c => exact (ha c rfl).ne'

/-- C7 witness: the reuse and reset behavior on a fresh group. -/
theorem C7_witness_fresh_group :
    freshGroup.Sync.2.Sync = (freshGroup.Sync.1, freshGroup.Sync.2) ∧
    (freshGroup.Sync.2.syncFinish).syncCh = none ∧
    (freshGroup.Sync.2.syncFinish).Sync.1 ≠ freshGroup.Sync.1 ∧
    freshGroup.Async.2.Async = (freshGroup.Async.1, freshGroup.Async.2) ∧
    (freshGroup.Async.2.asyncFinish).asyncCh = none ∧
    (freshGroup.Async.2.asyncFinish).Async.1 ≠ freshGroup.Async.1 :=
  C7_mode_reuse_and_reset freshGroup
    ⟨(fun _ hc => nomatch hc), (fun _ hc => nomatch hc)⟩

/-- Per-iteration binding restores the invariant: when every goroutine
reads the value assigned at its own spawn iteration (`reads` the
identity — a `req := req` copy inside the loop, or Go 1.22 per-iteration
range semantics, which is what the spec's invariant assumes), the
delivered envelopes are exactly one per submitted request for every
completion order.  This isolates the shared loop variable as the sole
obstacle to C8. -/
theorem asyncDeliveries_per_iteration_binding
    (reqs : List RequestM) (mat : Mat) (t : Transport) (order : List Nat)
    (h : order.Perm (List.range reqs.length)) :
    (asyncDeliveries reqs mat t (fun i => i) order).1.Perm
      (reqs.map (fun req => (req.ResponseExec mat t).1)) := by
  have hmm : ((List.range reqs.length).map
        (fun i => reqs.getD i (NewRequest "" ""))).map
        (fun req => (req.ResponseExec mat t).1)
      = (List.range reqs.length).map
          (fun i => ((reqs.getD i (NewRequest "" "")).ResponseExec mat t).1) := by
    rw [List.map_map]
    rfl
  have henvs : (List.range reqs.length).map
      (fun i => ((reqs.getD i (NewRequest "" "")).ResponseExec mat t).1)
      = reqs.map (fun req => (req.ResponseExec mat t).1) := by
    rw [← hmm, range_map_getD]
  have h2 := List.Perm.filterMap
    ((reqs.map (fun req => (req.ResponseExec mat t).1)).get?) h
  have h3 : (List.range reqs.length).filterMap
      ((reqs.map (fun req => (req.ResponseExec mat t).1)).get?)
      = reqs.map (fun req => (req.ResponseExec mat t).1) := by
    have hlen : (reqs.map (fun req => (req.ResponseExec mat t).1)).length
        = reqs.length := by
      simp
    conv_lhs => rw [← hlen]
    exact range_filterMap_get _
  rw [h3] at h2
  simpa only [asyncDeliveries, henvs] using h2

/-- C8: the claim says parallel fan-in delivers exactly one envelope per
submitted request — no duplicates, no drops — with every request running
to completion.  The code refutes it: the fan-out closure in `Group.Async`
reads the SHARED for-range loop variable `req` (pre-Go-1.22 semantics, no
go.mod), so under the legal — and in practice common — schedule where
both goroutines of a 2-request group read the variable after the loop
already advanced it to the last request, both execute the last request:
its envelope (a crash for the standalone second request) is delivered
twice and the first request is never executed, although two envelopes
still arrive and the channel still closes. -/
theorem C8_shared_loop_var_duplicates_and_drops :
    validReads 2 (fun _ => 1) ∧
    (asyncDeliveries raceReqs matOk alwaysFail (fun _ => 1) [0, 1]).1
        = [.crash, .crash] ∧
    raceReqs.map (fun req => (req.ResponseExec matOk alwaysFail).1)
        = [.err 0, .crash] ∧
    ¬ (asyncDeliveries raceReqs matOk alwaysFail (fun _ => 1) [0, 1]).1.Perm
        (raceReqs.map (fun req => (req.ResponseExec matOk alwaysFail).1)) ∧
    (asyncDeliveries raceReqs matOk alwaysFail (fun _ => 1) [0, 1]).2 = true := by
  refine ⟨by unfold validReads; decide, rfl, rfl, by decide, rfl⟩

/-- C9: both paired-argument builder operations (`Service.Paths` and
`Request.Params`) panic on an odd number of arguments; on an even number
they never panic and store every pair — each path key is present in the
map afterwards, and each param value is retrievable under its key. -/
theorem C9_odd_pairs_abort_even_pairs_store
    (m : String → Option String) (p : String → List String) (args : List String) :
    (args.length % 2 ≠ 0 →
      ServiceM.Paths m args = .error "method and path are not pairs" ∧
      RequestM.Params p args = .error "params error") ∧
    (args.length % 2 = 0 →
      ∃ m2 p2, ServiceM.Paths m args = .ok m2 ∧ RequestM.Params p args = .ok p2 ∧
        ∀ kv ∈ pairsOf args, (m2 kv.1).isSome = true ∧ kv.2 ∈ p2 kv.1) := by
  constructor
  · intro hodd
    constructor <;> simp [ServiceM.Paths, RequestM.Params, hodd]
  · intro heven
    refine ⟨(pairsOf args).foldl pathsStore m, (pairsOf args).foldl paramsAdd p,
      ?_, ?_, ?_⟩
    · simp [ServiceM.Paths, heven]
    · simp [RequestM.Params, heven]
    · intro kv hkv
      obtain ⟨k, v⟩ := kv
      exact ⟨pathsStore_mem_isSome _ k v hkv m, paramsAdd_mem _ k v hkv p⟩

/-- C9 witness: one argument panics in both operations; the pair
("GET", "/users") is stored and retrievable. -/
theorem C9_witness_pairs :
    (ServiceM.Paths emptyPaths ["GET"] = .error "method and path are not pairs" ∧
      RequestM.Params emptyParams ["GET"] = .error "params error") ∧
    (∃ m2 p2, ServiceM.Paths emptyPaths ["GET", "/users"] = .ok m2 ∧
      RequestM.Params emptyParams ["GET", "/users"] = .ok p2 ∧
      ∀ kv ∈ pairsOf ["GET", "/users"], (m2 kv.1).isSome = true ∧ kv.2 ∈ p2 kv.1) :=
  ⟨(C9_odd_pairs_abort_even_pairs_store emptyPaths emptyParams ["GET"]).1
      (by decide),
    (C9_odd_pairs_abort_even_pairs_store emptyPaths emptyParams
      ["GET", "/users"]).2 (by decide)⟩

/-- C10: a standalone request built by `NewRequest` has a nil service, so
executing it with a well-formed method and URI crashes with a nil-pointer
dereference in `_do` (zero network attempts, no envelope) — even though
the nil-safe `client()` accessor would have produced a usable client from
the request's own timeout. -/
theorem C10_standalone_request_nil_service_crash
    (m u : String) (mat : Mat) (t : Transport)
    (h : mat (if m = "" then "GET" else m) u = .ok ()) :
    (NewRequest m u).ResponseExec mat t = (.crash, ⟨[], 0, [], []⟩) ∧
    (NewRequest m u).service = none ∧
    (NewRequest m u).client = { timeout := 20 } := by
  refine ⟨?_, rfl, rfl⟩
  have hdo : (NewRequest m u).doCall mat t = (.crash, ⟨[], 0, []⟩) := by
    unfold RequestM.doCall
    simp only [NewRequest]
    rw [h]
    rfl
  unfold RequestM.ResponseExec
  rw [hdo]

/-- C10 witness: a concrete standalone GET request with a succeeding
materialization crashes instead of producing an envelope. -/
theorem C10_witness_standalone :
    (NewRequest "GET" "http://example.com").ResponseExec matOk alwaysFail
        = (.crash, ⟨[], 0, [], []⟩) ∧
    (NewRequest "GET" "http://example.com").service = none ∧
    (NewRequest "GET" "http://example.com").client = { timeout := 20 } :=
  C10_standalone_request_nil_service_crash "GET" "http://example.com" matOk
    alwaysFail rfl

end Httpr
